import Mathlib

/-!
Verification of the continuous-monitoring / alert-dispatch core of the
`yflop/fedramp` repository, as specified in its natural-language design
document.  The Go source is shallowly embedded: pure data is translated to
Lean structures, machine time (`time.Time`, `UnixNano`) to `Int` readings of
a clock, channels to an explicit buffer-plus-closed-flag state, goroutine
fan-out with `sync.WaitGroup` to the list of per-task results the dispatcher
has collected once `wg.Wait()` returns, and the consumer loop to a fold over
the buffered queue producing an event trace.
-/

namespace FedrampMonitor

/-- Embeds `monitor.Violation` (continuous_monitor.go): severity,
description, affected resource, remediation text. -/
structure Violation where
  Severity : String
  Description : String
  Resource : String
  Remediation : String
deriving Repr, DecidableEq

/-- Embeds `monitor.Alert` (alerts.go / part_000 lines 16-25).  `Timestamp`
is an integer clock reading standing for `time.Time`; `Metadata` is an
association list standing for the open-ended map. -/
structure Alert where
  ID : String
  Severity : String
  Title : String
  Description : String
  CSOId : String
  Timestamp : Int
  Violations : List Violation
  Metadata : List (String × String)
deriving Repr, DecidableEq

/-- Embeds the `monitor.AlertHandler` interface: `Handle(alert) -> error`
(`none` = nil error, `some e` = error message) and `Name() -> string`. -/
structure AlertHandler where
  name : String
  handle : Alert → Option String

/-- One pass of the fan-out loop in `AlertManager.handleAlert` (part_000
lines 131-142): for each (name, handler) of the registry snapshot a
goroutine invokes `h.Handle(a)` and the error, if any, is logged; nothing
is short-circuited.  The list collects, in snapshot order, the name of each
handler together with the error value its single `Handle` call returned. -/
def runHandlers : List (String × AlertHandler) → Alert → List (String × Option String)
  | [], _ => []
  | (n, h) :: rest, a => (n, h.handle a) :: runHandlers rest a

/-- What `AlertManager.handleAlert` has done for one alert by the time
`wg.Wait()` has returned: every snapshot handler has been attempted
(`outcomes`), and the post-wait `storeAlert` step has run (`stored`). -/
structure DispatchRecord where
  outcomes : List (String × Option String)
  stored : Bool
deriving Repr, DecidableEq

/-- Embeds `AlertManager.handleAlert` (part_000 lines 120-147): snapshot the
registry under the read lock, invoke every handler, wait for all of them,
then store the alert. -/
def handleAlert (snapshot : List (String × AlertHandler)) (a : Alert) : DispatchRecord :=
  { outcomes := runHandlers snapshot a, stored := true }

/-- State of the buffered channel `am.alerts` (`make(chan *Alert, 1000)`):
its fixed capacity, the FIFO buffer, and whether `close` has been called. -/
structure AlertChan where
  capacity : Nat
  buffer : List Alert
  closed : Bool
deriving Repr, DecidableEq

/-- Outcome of one `select { case am.alerts <- alert: ... default: ... }`
attempt in `AlertManager.SendAlert` (part_000 lines 76-81).  `queued` is the
`log.Infof("Alert queued...")` branch, `droppedFull` the
`log.Errorf("Alert queue full, dropping alert...")` default branch, and
`panicked` records the Go runtime panic raised when the send case fires on a
closed channel (a send on a closed channel always proceeds by panicking; the
`default` branch is not taken). -/
inductive SendOutcome where
  | queued
  | droppedFull
  | panicked
deriving Repr, DecidableEq

/-- The non-blocking send of `SendAlert`: on a closed channel the send case
panics; otherwise the alert is buffered when capacity allows and dropped
when the buffer is full.  The call never blocks. -/
def trySend (ch : AlertChan) (a : Alert) : AlertChan × SendOutcome :=
  if ch.closed then (ch, SendOutcome.panicked)
  else if ch.buffer.length < ch.capacity then
    ({ ch with buffer := ch.buffer ++ [a] }, SendOutcome.queued)
  else (ch, SendOutcome.droppedFull)

/-- The ID assignment at the top of `SendAlert`:
`alert.ID = fmt.Sprintf("ALERT-%d", time.Now().UnixNano())`. -/
def assignID (now : Int) (a : Alert) : Alert :=
  { a with ID := "ALERT-" ++ toString now }

/-- Embeds `AlertManager.SendAlert` (part_000 lines 73-82): stamp the ID
from the nanosecond clock, then attempt the non-blocking send.  The pair
returned is the channel state afterwards and the logged/panicked outcome;
the Go function itself has no return value. -/
def SendAlert (ch : AlertChan) (now : Int) (a : Alert) : AlertChan × SendOutcome :=
  trySend ch (assignID now a)

/-- The value a *caller* of `SendAlert` receives.  In the source the
function is declared `func (am *AlertManager) SendAlert(alert *Alert)` with
no result, so the caller receives nothing: success or failure of the
enqueue is never returned, only logged. -/
def sendAlertReturn (ch : AlertChan) (now : Int) (a : Alert) : Unit :=
  ()

/-- Modelled from the spec: the claimed contract
`Enqueue(alert) -> bool` that "returns immediately, never blocks" and
"reports failure" as its boolean result when the buffer is full.  Stated
here only to be compared against the source's `SendAlert`. -/
def EnqueueSpec (ch : AlertChan) (a : Alert) : AlertChan × Bool :=
  if ch.buffer.length < ch.capacity then
    ({ ch with buffer := ch.buffer ++ [a] }, true)
  else (ch, false)

/-- A freshly constructed queue as in `NewAlertManager`
(`make(chan *Alert, 1000)`): empty buffer, open. -/
def newChan (capacity : Nat) : AlertChan :=
  { capacity := capacity, buffer := [], closed := false }

/-- A sequence of synchronous `SendAlert` calls with no consumer draining:
each element pairs the clock reading at the call with the alert sent.
Returns the final channel state and the per-call outcomes in order. -/
def sendAll (ch : AlertChan) : List (Int × Alert) → AlertChan × List SendOutcome
  | [] => (ch, [])
  | (now, a) :: rest =>
    let step := SendAlert ch now a
    let tail := sendAll step.1 rest
    (tail.1, step.2 :: tail.2)

/-- The state of an `AlertManager` visible to `Stop` and the consumer: the
channel and the handler registry (a point-in-time view of the
mutex-guarded map, kept as an association list). -/
structure AMState where
  ch : AlertChan
  handlers : List (String × AlertHandler)

/-- The draining loop the consumer runs once the channel is closed
(`for alert := range am.alerts` in `processAlerts`, part_000 lines 110-113,
or equivalently receiving until `ok == false`): each still-buffered alert
goes through the full `handleAlert` fan-out, in FIFO order. -/
def drainQueue (hs : List (String × AlertHandler)) : List Alert → List (Alert × DispatchRecord)
  | [] => []
  | a :: rest => (a, handleAlert hs a) :: drainQueue hs rest

/-- Embeds `AlertManager.Stop` (part_000 lines 91-96): `cancel()` plus
`close(am.alerts)` shut the producer side, then `wg.Wait()` blocks until the
consumer has drained every buffered alert.  The result is the manager state
when `Stop` returns together with the dispatch records of every alert that
was drained, in queue order. -/
def StopAM (st : AMState) : AMState × List (Alert × DispatchRecord) :=
  ({ st with ch := { st.ch with buffer := [], closed := true } },
   drainQueue st.handlers st.ch.buffer)

/-- Observable steps of the single consumer `processAlerts`: `dequeue k` is
the receive of the k-th queued alert, `invoke k n` the goroutine launch of
handler `n` for it, `waitDone k` the return of that alert's `wg.Wait()`. -/
inductive Ev where
  | dequeue (k : Nat)
  | invoke (k : Nat) (handlerName : String)
  | waitDone (k : Nat)
deriving Repr, DecidableEq

/-- The event trace `handleAlert` contributes for the alert at queue
position `k`: all handler launches strictly between its dequeue and its
wait-for-all completion. -/
def alertTrace (hs : List (String × AlertHandler)) (k : Nat) : List Ev :=
  Ev.dequeue k :: (hs.map (fun nh => Ev.invoke k nh.1) ++ [Ev.waitDone k])

/-- The consumer loop of `processAlerts` (part_000 lines 99-117) over the
buffered alerts starting at queue position `i`: strictly one alert at a
time, each fully handled (through `waitDone`) before the next receive. -/
def processFrom (hs : List (String × AlertHandler)) (i : Nat) : List Alert → List Ev
  | [] => []
  | _ :: rest => alertTrace hs i ++ processFrom hs (i + 1) rest

/-- The full single-consumer trace for a buffered queue. -/
def processTrace (hs : List (String × AlertHandler)) (q : List Alert) : List Ev :=
  processFrom hs 0 q

/-- The queue positions in dequeue order appearing in a trace. -/
def dequeues (t : List Ev) : List Nat :=
  t.filterMap (fun e => match e with
    | Ev.dequeue k => some k
    | _ => none)

/-- The aggregation key of `AlertAggregator.Add`:
`fmt.Sprintf("%s-%s-%s", alert.CSOId, alert.Severity, alert.Title)`. -/
def aggKey (a : Alert) : String :=
  a.CSOId ++ "-" ++ a.Severity ++ "-" ++ a.Title

/-- Embeds `monitor.AlertAggregator` (part_000 lines 346-360): sliding
window, threshold (a Go `int`), and the keyed map of tracked alerts,
modelled as a total function defaulting to the empty list (a missing map
key reads as `nil` in Go). -/
structure AlertAggregator where
  window : Int
  threshold : Int
  alerts : String → List Alert

/-- `NewAlertAggregator(window, threshold)`: empty tracking map. -/
def newAggregator (window threshold : Int) : AlertAggregator :=
  { window := window, threshold := threshold, alerts := fun _ => [] }

/-- Embeds `AlertAggregator.Add` (part_000 lines 363-384): compute the key,
keep only tracked entries with `Timestamp.After(now - window)` (strictly
later than the cutoff), append the new alert, and report whether the
resulting list has reached the threshold (`len >= threshold`). -/
def AggAdd (aa : AlertAggregator) (now : Int) (a : Alert) : AlertAggregator × Bool :=
  let key := aggKey a
  let cutoff := now - aa.window
  let filtered := (aa.alerts key).filter (fun x => decide (cutoff < x.Timestamp))
  let updated := filtered ++ [a]
  ({ aa with alerts := fun k => if k = key then updated else aa.alerts k },
   decide (aa.threshold ≤ (updated.length : Int)))

/-- A sequence of `Add` calls, each paired with the `time.Now()` reading it
observes; returns the final aggregator and the per-call results in order. -/
def addSeq (aa : AlertAggregator) : List (Int × Alert) → AlertAggregator × List Bool
  | [] => (aa, [])
  | (now, a) :: rest =>
    let step := AggAdd aa now a
    let tail := addSeq step.1 rest
    (tail.1, step.2 :: tail.2)

/-- Embeds `monitor.ValidationResult` (continuous_monitor.go lines 57-63);
the float64 score is modelled as a rational, `Details` omitted (it is
consumed by no decision in this core). -/
structure ValidationResult where
  Valid : Bool
  Score : ℚ
  Timestamp : Int
  Violations : List Violation

/-- Embeds the `monitor.Validator` interface: `Validate(ctx, csoID)`
returning a result or an error, plus `Name()`. -/
structure Validator where
  name : String
  validate : String → Except String ValidationResult

/-- The scheduler configuration fields this core reads
(`monitor.Config`). -/
structure MonitorConfig where
  alertThreshold : ℚ
  enabledChecks : List String

/-- Embeds `ContinuousMonitor.isCheckEnabled` (continuous_monitor.go lines
421-428): linear scan of `config.EnabledChecks` for an exact match. -/
def isCheckEnabled (cfg : MonitorConfig) (checkName : String) : Bool :=
  cfg.enabledChecks.contains checkName

/-- The alert literal built by `ContinuousMonitor.processValidationResult`
(continuous_monitor.go lines 245-252): severity is the constant "high",
title and description are formatted from the validator name, CSO id and
score, timestamp is `time.Now()`, violations are copied from the result.
The numeric rendering of the score stands in for Go's `%.2f`; no claim
inspects the rendered text. -/
def mkValidationAlert (csoID valName : String) (now : Int) (r : ValidationResult) : Alert :=
  { ID := ""
    Severity := "high"
    Title := "Validation failed for " ++ valName
    Description :=
      "CSO " ++ csoID ++ " failed " ++ valName ++ " validation with score " ++ toString r.Score
    CSOId := csoID
    Timestamp := now
    Violations := r.Violations
    Metadata := [] }

/-- Embeds `ContinuousMonitor.processValidationResult` (continuous_monitor.go
lines 237-255) up to its `SendAlert` call: after storing the result, an
alert is constructed and handed to the queue iff `!result.Valid ||
result.Score < config.AlertThreshold`; the value is the alert submitted, or
`none` when no alert is raised. -/
def processValidationResult (cfg : MonitorConfig) (csoID valName : String) (now : Int)
    (r : ValidationResult) : Option Alert :=
  if !r.Valid || decide (r.Score < cfg.alertThreshold) then
    some (mkValidationAlert csoID valName now r)
  else none

/-- The body of the per-(entity, validator) goroutine launched by
`runValidations` (continuous_monitor.go lines 195-204): a `Validate` error
is logged and the pair's result skipped (`return`); on success the result
is processed. -/
def runValidationTask (cfg : MonitorConfig) (csoID : String) (valName : String)
    (v : Validator) (now : Int) : Option Alert :=
  match v.validate csoID with
  | Except.error _ => none
  | Except.ok r => processValidationResult cfg csoID valName now r

/-- The inner loop of `ContinuousMonitor.runValidations` for one CSO id:
pairs whose validator name fails `isCheckEnabled` are skipped (`continue`);
for the rest a goroutine is launched and its outcome recorded.  Each list
entry is the launched pair `(csoID, validatorName)` with the alert it
submitted, if any. -/
def runRow (cfg : MonitorConfig) (csoID : String) (now : Int) :
    List (String × Validator) → List ((String × String) × Option Alert)
  | [] => []
  | (n, v) :: rest =>
    if isCheckEnabled cfg n then
      ((csoID, n), runValidationTask cfg csoID n v now) :: runRow cfg csoID now rest
    else runRow cfg csoID now rest

/-- Embeds `ContinuousMonitor.runValidations` (continuous_monitor.go lines
178-207): snapshot the validator registry under the read lock, fetch the
tracked CSO ids, and run the nested launch loops. -/
def runValidations (cfg : MonitorConfig) (csoIDs : List String)
    (validators : List (String × Validator)) (now : Int) :
    List ((String × String) × Option Alert) :=
  match csoIDs with
  | [] => []
  | cid :: rest => runRow cfg cid now validators ++ runValidations cfg rest validators now

/-- The (entity, validator) pairs for which a tick launches a task, together
with the validator each task invokes. -/
def launchedTasks (cfg : MonitorConfig) (csoIDs : List String)
    (validators : List (String × Validator)) : List ((String × String) × Validator) :=
  csoIDs.flatMap (fun cid =>
    (validators.filter (fun nv => isCheckEnabled cfg nv.1)).map (fun nv => ((cid, nv.1), nv.2)))

/-- The (entity, validatorName) pairs for which a tick launches a task. -/
def launchedPairs (cfg : MonitorConfig) (csoIDs : List String)
    (validators : List (String × Validator)) : List (String × String) :=
  (launchedTasks cfg csoIDs validators).map Prod.fst

/-- Embeds `monitor.PagerDutyHandler` (part_000 lines 278-281). -/
structure PagerDutyHandler where
  apiKey : String
  routingKey : String

/-- Whether `PagerDutyHandler.Handle` (part_000 lines 287-330) proceeds past
its guard and sends a paging event: it returns nil immediately when
`h.apiKey == ""` or `alert.Severity != "critical"`. -/
def pagerDutySends (h : PagerDutyHandler) (a : Alert) : Bool :=
  if h.apiKey = "" || a.Severity ≠ "critical" then false else true

/-! Concrete instances used by witnesses and counterexamples. -/

/-- A sample alert with the given timestamp. -/
def exAlert (ts : Int) : Alert :=
  { ID := "", Severity := "high", Title := "T", Description := "d", CSOId := "C",
    Timestamp := ts, Violations := [], Metadata := [] }

/-- A handler whose `Handle` always returns an error. -/
def exErrHandler : AlertHandler :=
  { name := "Webhook Handler", handle := fun _ => some "connection refused" }

/-- A handler whose `Handle` always succeeds. -/
def exOkHandler : AlertHandler :=
  { name := "Email Handler", handle := fun _ => none }

/-- A two-entry registry snapshot: one failing handler, one succeeding. -/
def exRegistry : List (String × AlertHandler) :=
  [("webhook", exErrHandler), ("email", exOkHandler)]

/-- A capacity-2 channel that is already full. -/
def exFullChan : AlertChan :=
  { capacity := 2, buffer := [exAlert 0, exAlert 1], closed := false }

/-- A manager with the source's capacity-1000 queue, empty and open. -/
def exManager : AMState :=
  { ch := { capacity := 1000, buffer := [], closed := false }, handlers := exRegistry }

/-- A manager with two alerts still buffered when `Stop` is called. -/
def exBufferedManager : AMState :=
  { ch := { capacity := 3, buffer := [exAlert 0, exAlert 1], closed := false },
    handlers := exRegistry }

/-- A validator whose `Validate` always fails. -/
def exValidatorErr : Validator :=
  { name := "KSI Validator", validate := fun _ => Except.error "db unavailable" }

/-- A validator returning a valid result whose score is below 70. -/
def exValidatorLow : Validator :=
  { name := "KSI Validator",
    validate := fun _ =>
      Except.ok { Valid := true, Score := 50, Timestamp := 0, Violations := [] } }

/-- A configuration enabling only the "ksi" check. -/
def exCfg : MonitorConfig := { alertThreshold := 70, enabledChecks := ["ksi"] }

/-- A configuration with an empty `EnabledChecks` list. -/
def exCfgNone : MonitorConfig := { alertThreshold := 70, enabledChecks := [] }

/-- An aggregator (window 60, threshold 3) whose only tracked entry for the
key of `exAlert` is stale: its timestamp 0 is older than 70 − 60. -/
def exAggStale : AlertAggregator :=
  { window := 60, threshold := 3,
    alerts := fun k => if k = "C-high-T" then [exAlert 0] else [] }

/-! Helper lemmas (shared across claims). -/

theorem runHandlers_eq_map (l : List (String × AlertHandler)) (a : Alert) :
    runHandlers l a = l.map (fun nh => (nh.1, nh.2.handle a)) := by
  induction l with
  | nil => rfl
  | cons h t ih =>
    obtain ⟨n, hh⟩ := h
    simp [runHandlers, ih]

/-! Claim theorems. -/

/-- C1: for every alert dispatched against a registry snapshot of H
handlers, `handleAlert` produces exactly one outcome per handler (H in
total), and the i-th outcome is precisely the result of the single `Handle`
invocation of the i-th snapshot handler — a formula independent of every
sibling handler, so one handler's error can neither cancel nor alter any
sibling's invocation; and the post-wait `storeAlert` step runs (`stored`)
whatever the handlers returned, so the alert is processed as a whole. -/
theorem C1_fanout_exactly_once (snapshot : List (String × AlertHandler)) (a : Alert) :
    ((handleAlert snapshot a).outcomes.length = snapshot.length)
    ∧ (∀ i : Nat, (handleAlert snapshot a).outcomes[i]?
        = (snapshot[i]?).map (fun nh => (nh.1, nh.2.handle a)))
    ∧ ((handleAlert snapshot a).stored = true) := by
  refine ⟨?_, ?_, rfl⟩
  · simp [handleAlert, runHandlers_eq_map]
  · intro i
    simp [handleAlert, runHandlers_eq_map]

/-- C2 counterexample: `SendAlert` reports nothing to its caller.  At the
concrete full capacity-2 channel the call drops the alert and at the fresh
channel it queues it, yet the value returned to the caller is identical in
both cases (the Go function has no return value), whereas the spec's
claimed `Enqueue -> bool` contract distinguishes the two.  So the claim
"returns a boolean to its caller ... reporting failure" is false of the
code. -/
theorem C2_counterexample :
    (SendAlert exFullChan 5 (exAlert 5)).2 = SendOutcome.droppedFull
    ∧ (SendAlert (newChan 2) 5 (exAlert 5)).2 = SendOutcome.queued
    ∧ sendAlertReturn exFullChan 5 (exAlert 5) = sendAlertReturn (newChan 2) 5 (exAlert 5)
    ∧ (EnqueueSpec exFullChan (exAlert 5)).2 ≠ (EnqueueSpec (newChan 2) (exAlert 5)).2 := by
  decide

theorem sendAll_open (calls : List (Int × Alert)) :
    ∀ ch : AlertChan, ch.closed = false →
      (sendAll ch calls).2
        = List.replicate (min calls.length (ch.capacity - ch.buffer.length)) SendOutcome.queued
            ++ List.replicate (calls.length - (ch.capacity - ch.buffer.length))
                SendOutcome.droppedFull
      ∧ (sendAll ch calls).1.buffer
          = ch.buffer
              ++ ((calls.take (ch.capacity - ch.buffer.length)).map
                    (fun c => assignID c.1 c.2)) := by
  induction calls with
  | nil =>
    intro ch hch
    simp [sendAll]
  | cons c rest ih =>
    intro ch hch
    obtain ⟨now, a⟩ := c
    by_cases hlt : ch.buffer.length < ch.capacity
    · have hstep : SendAlert ch now a
          = ({ ch with buffer := ch.buffer ++ [assignID now a] }, SendOutcome.queued) := by
        simp [SendAlert, trySend, hch, hlt]
      have htail := ih { ch with buffer := ch.buffer ++ [assignID now a] } hch
      simp only [sendAll, hstep] at *
      obtain ⟨h1, h2⟩ := htail
      constructor
      · rw [h1]
        simp only [List.length_append, List.length_cons]
        rw [show min (rest.length + 1) (ch.capacity - ch.buffer.length)
              = min rest.length (ch.capacity - (ch.buffer.length + 1)) + 1 by omega,
            show rest.length + 1 - (ch.capacity - ch.buffer.length)
              = rest.length - (ch.capacity - (ch.buffer.length + 1)) by omega,
            List.replicate_succ, List.cons_append]
        simp
      · rw [h2]
        simp only [List.length_append, List.length_cons, List.length_nil]
        rw [show ch.capacity - ch.buffer.length
              = (ch.capacity - (ch.buffer.length + 1)) + 1 by omega,
            List.take_succ_cons]
        simp [List.append_assoc]
    · have hstep : SendAlert ch now a = (ch, SendOutcome.droppedFull) := by
        simp [SendAlert, trySend, hch, hlt]
      have htail := ih ch hch
      simp only [sendAll, hstep] at *
      obtain ⟨h1, h2⟩ := htail
      constructor
      · rw [h1]
        rw [show ch.capacity - ch.buffer.length = 0 by omega]
        simp [List.replicate_succ]
      · rw [h2]
        rw [show ch.capacity - ch.buffer.length = 0 by omega]
        simp

/-- C2 amended: `SendAlert` never blocks, but returns nothing to its
caller; with capacity C and no consumer draining, the first C of N
synchronous calls buffer their alert (logging success) and each of the
remaining N − C calls immediately drops its alert, recording the failure
only in the log.  The final buffer holds exactly the first min(N, C)
alerts, ID-stamped, in order. -/
theorem C2_amended_drop_on_full (C : Nat) (calls : List (Int × Alert)) :
    (sendAll (newChan C) calls).2
      = List.replicate (min calls.length C) SendOutcome.queued
          ++ List.replicate (calls.length - C) SendOutcome.droppedFull
    ∧ (sendAll (newChan C) calls).1.buffer
        = (calls.take C).map (fun c => assignID c.1 c.2) := by
  have h := sendAll_open calls (newChan C) rfl
  simpa [newChan] using h

/-- C3: the claim is right and the code is wrong.  After `Stop()` has
closed the channel, a subsequent `SendAlert` finds the queue far from full
(0 of 1000 slots used) yet the `select` send case fires on the closed
channel and the Go runtime panics — the enqueue neither fails cleanly nor
is silently applied; it crashes the process. -/
theorem C3_enqueue_after_stop_panics :
    ((StopAM exManager).1.ch.buffer.length < (StopAM exManager).1.ch.capacity)
    ∧ (SendAlert (StopAM exManager).1.ch 7 (exAlert 7)).2 = SendOutcome.panicked := by
  decide

theorem drainQueue_eq_map (hs : List (String × AlertHandler)) (q : List Alert) :
    drainQueue hs q = q.map (fun a => (a, handleAlert hs a)) := by
  induction q with
  | nil => rfl
  | cons a rest ih => simp [drainQueue, ih]

/-- C4: when `Stop` is called with M alerts buffered, the producer side is
closed, every one of the M buffered alerts is dispatched — in order, with
the complete handler fan-out (one outcome per registered handler) and the
post-wait store step — before `Stop` returns; with an empty buffer nothing
remains to drain and `Stop` returns at once. -/
theorem C4_stop_drains_buffered (st : AMState) :
    ((StopAM st).2.map Prod.fst = st.ch.buffer)
    ∧ (∀ r ∈ (StopAM st).2,
        r.2.outcomes.length = st.handlers.length ∧ r.2.stored = true)
    ∧ ((StopAM st).1.ch.closed = true)
    ∧ (st.ch.buffer = [] → (StopAM st).2 = []) := by
  refine ⟨?_, ?_, rfl, ?_⟩
  · simp [StopAM, drainQueue_eq_map, List.map_map, Function.comp_def]
  · intro r hr
    rw [StopAM] at hr
    simp only [drainQueue_eq_map, List.mem_map] at hr
    obtain ⟨a, _, rfl⟩ := hr
    constructor
    · simp [handleAlert, runHandlers_eq_map]
    · rfl
  · intro h
    simp [StopAM, h, drainQueue]

/-- C4 witness: on a manager stopped with two buffered alerts, the drained
alerts are exactly the buffer, the first drained alert received the full
two-handler fan-out, the producer is closed; on the empty manager the
drain list is empty. -/
theorem C4_stop_drains_buffered_witness :
    ((StopAM exBufferedManager).2.map Prod.fst = exBufferedManager.ch.buffer)
    ∧ ((exAlert 0, handleAlert exBufferedManager.handlers (exAlert 0)).2.outcomes.length
        = exBufferedManager.handlers.length)
    ∧ ((StopAM exBufferedManager).1.ch.closed = true)
    ∧ ((StopAM exManager).2 = []) := by
  have h := C4_stop_drains_buffered exBufferedManager
  exact ⟨h.1, (h.2.1 _ (by decide)).1, h.2.2.1,
    (C4_stop_drains_buffered exManager).2.2.2 rfl⟩

theorem processFrom_append (hs : List (String × AlertHandler)) (xs ys : List Alert) :
    ∀ i, processFrom hs i (xs ++ ys)
      = processFrom hs i xs ++ processFrom hs (i + xs.length) ys := by
  induction xs with
  | nil => intro i; simp [processFrom]
  | cons x rest ih =>
    intro i
    show alertTrace hs i ++ processFrom hs (i + 1) (rest ++ ys)
        = (alertTrace hs i ++ processFrom hs (i + 1) rest)
            ++ processFrom hs (i + (rest.length + 1)) ys
    rw [ih (i + 1), List.append_assoc,
      show i + (rest.length + 1) = i + 1 + rest.length by omega]

theorem dequeues_append (s t : List Ev) :
    dequeues (s ++ t) = dequeues s ++ dequeues t := by
  simp [dequeues, List.filterMap_append]

theorem dequeues_alertTrace (hs : List (String × AlertHandler)) (k : Nat) :
    dequeues (alertTrace hs k) = [k] := by
  simp [dequeues, alertTrace, List.filterMap_append, List.filterMap_map,
    Function.comp_def]

theorem dequeues_processFrom (hs : List (String × AlertHandler)) (q : List Alert) :
    ∀ i, dequeues (processFrom hs i q) = List.range' i q.length := by
  induction q with
  | nil => intro i; simp [processFrom, dequeues]
  | cons a rest ih =>
    intro i
    simp only [processFrom, dequeues_append, dequeues_alertTrace, ih (i + 1),
      List.length_cons]
    rw [List.range'_succ]
    rfl

theorem processFrom_getLast (hs : List (String × AlertHandler)) (q : List Alert) :
    ∀ i, q ≠ [] →
      (processFrom hs i q).getLast? = some (Ev.waitDone (i + q.length - 1)) := by
  induction q with
  | nil => intro i h; exact absurd rfl h
  | cons a rest ih =>
    intro i _
    cases rest with
    | nil =>
      show (alertTrace hs i ++ processFrom hs (i + 1) []).getLast? = _
      rw [processFrom, List.append_nil, alertTrace, ← List.cons_append,
        List.getLast?_concat]
      simp
    | cons b rs =>
      have hne : processFrom hs (i + 1) (b :: rs) ≠ [] := by
        rw [processFrom, alertTrace, List.cons_append]
        exact List.cons_ne_nil _ _
      show (alertTrace hs i ++ processFrom hs (i + 1) (b :: rs)).getLast? = _
      rw [List.getLast?_append_of_ne_nil _ hne, ih (i + 1) (List.cons_ne_nil _ _)]
      simp only [List.length_cons]
      congr 2
      omega

theorem processFrom_head (hs : List (String × AlertHandler)) (q : List Alert)
    (i : Nat) (h : q ≠ []) : (processFrom hs i q).head? = some (Ev.dequeue i) := by
  cases q with
  | nil => exact absurd rfl h
  | cons a rest =>
    rw [processFrom, alertTrace, List.cons_append]
    rfl

/-- C5: the consumer dequeues alerts in exact FIFO enqueue order (the
dequeue positions of the trace are 0, 1, ..., N−1 in order), and for every
k the trace splits into the complete processing of alerts 0..k — ending
with alert k's wait-for-all-handlers completion — followed by the rest,
whose first event is the dequeue of alert k+1: the (k+1)-th alert is not
even dequeued until alert k's fan-out has fully finished. -/
theorem C5_single_consumer_fifo (hs : List (String × AlertHandler)) (q : List Alert)
    (k : Nat) (hk : k + 1 < q.length) :
    (dequeues (processTrace hs q) = List.range' 0 q.length)
    ∧ (processTrace hs q
        = processFrom hs 0 (q.take (k + 1)) ++ processFrom hs (k + 1) (q.drop (k + 1)))
    ∧ ((processFrom hs 0 (q.take (k + 1))).getLast? = some (Ev.waitDone k))
    ∧ ((processFrom hs (k + 1) (q.drop (k + 1))).head? = some (Ev.dequeue (k + 1))) := by
  have htake : (q.take (k + 1)).length = k + 1 := by
    rw [List.length_take]
    omega
  refine ⟨dequeues_processFrom hs q 0, ?_, ?_, ?_⟩
  · conv_lhs => rw [processTrace, ← List.take_append_drop (k + 1) q]
    rw [processFrom_append]
    rw [htake, Nat.zero_add]
  · have hne : q.take (k + 1) ≠ [] := by
      intro hnil
      rw [hnil] at htake
      exact absurd htake (by simp)
    rw [processFrom_getLast hs _ 0 hne, htake]
    simp
  · apply processFrom_head
    intro hnil
    have := congrArg List.length hnil
    rw [List.length_drop] at this
    simp at this
    omega

/-- C5 witness: with the two-handler registry and three queued alerts, the
dequeue order is 0,1,2, the trace splits after alert 0's processing, that
processing ends with alert 0's wait step, and the remainder begins by
dequeuing alert 1. -/
theorem C5_single_consumer_fifo_witness :
    (dequeues (processTrace exRegistry [exAlert 0, exAlert 1, exAlert 2])
      = List.range' 0 3)
    ∧ (processTrace exRegistry [exAlert 0, exAlert 1, exAlert 2]
        = processFrom exRegistry 0 [exAlert 0]
            ++ processFrom exRegistry 1 [exAlert 1, exAlert 2])
    ∧ ((processFrom exRegistry 0 [exAlert 0]).getLast? = some (Ev.waitDone 0))
    ∧ ((processFrom exRegistry 1 [exAlert 1, exAlert 2]).head?
        = some (Ev.dequeue 1)) :=
  C5_single_consumer_fifo exRegistry [exAlert 0, exAlert 1, exAlert 2] 0 (by decide)

theorem addSeq_same_key (K : String) (w t : Int) (calls : List (Int × Alert)) :
    ∀ aa : AlertAggregator, aa.window = w → aa.threshold = t →
      (∀ c ∈ calls, aggKey c.2 = K) →
      (∀ b ∈ aa.alerts K, ∀ c ∈ calls, c.1 - w < b.Timestamp) →
      List.Pairwise (fun c d => d.1 - w < c.2.Timestamp) calls →
      (addSeq aa calls).2
        = (List.range calls.length).map
            (fun i : Nat => decide (t ≤ ((aa.alerts K).length : Int) + (i : Int) + 1)) := by
  induction calls with
  | nil => intro aa _ _ _ _ _; rfl
  | cons c rest ih =>
    intro aa hw ht hkey hsurv hpair
    obtain ⟨now, a⟩ := c
    have hk : aggKey a = K := hkey (now, a) (List.mem_cons_self _ _)
    have hfilter :
        (aa.alerts K).filter (fun x => decide (now - aa.window < x.Timestamp))
          = aa.alerts K := by
      apply List.filter_eq_self.mpr
      intro b hb
      exact decide_eq_true (by
        rw [hw]
        exact hsurv b hb (now, a) (List.mem_cons_self _ _))
    have hstep : AggAdd aa now a
        = ({ aa with
              alerts := fun k => if k = K then aa.alerts K ++ [a] else aa.alerts k },
           decide (t ≤ ((aa.alerts K).length : Int) + 1)) := by
      simp only [AggAdd, hk, hfilter, ht]
      congr 1
      rw [decide_eq_decide]
      simp only [List.length_append, List.length_cons, List.length_nil]
      push_cast
      omega
    rw [List.pairwise_cons] at hpair
    obtain ⟨hhead, hptail⟩ := hpair
    have hsurv1 :
        ∀ b ∈ (aa.alerts K ++ [a]), ∀ c ∈ rest, c.1 - w < b.Timestamp := by
      intro b hb c hc
      rcases List.mem_append.mp hb with hbB | hba
      · exact hsurv b hbB c (List.mem_cons_of_mem _ hc)
      · rw [List.mem_singleton.mp hba]
        exact hhead c hc
    have htail := ih
      { aa with alerts := fun k => if k = K then aa.alerts K ++ [a] else aa.alerts k }
      hw ht (fun c hc => hkey c (List.mem_cons_of_mem _ hc))
      (by simpa using hsurv1) hptail
    have hproj :
        ({ aa with
            alerts := fun k => if k = K then aa.alerts K ++ [a] else aa.alerts k } :
          AlertAggregator).alerts K = aa.alerts K ++ [a] := by
      simp
    show ((AggAdd aa now a).2 :: (addSeq (AggAdd aa now a).1 rest).2) = _
    rw [hstep]
    simp only []
    rw [htail]
    simp only [hproj, List.length_cons]
    rw [List.range_succ_eq_map, List.map_cons, List.map_map]
    refine congrArg₂ List.cons ?_ ?_
    · exact decide_eq_decide.mpr (by push_cast; omega)
    · apply List.map_congr_left
      intro i _
      exact decide_eq_decide.mpr
        (by push_cast [List.length_append, List.length_singleton]; omega)

theorem map_decide_range (n : Nat) (hn : 1 ≤ n) :
    (List.range n).map (fun i : Nat => decide ((n : Int) ≤ (i : Int) + 1))
      = List.replicate (n - 1) false ++ [true] := by
  obtain ⟨m, rfl⟩ : ∃ m, n = m + 1 := ⟨n - 1, by omega⟩
  rw [show m + 1 - 1 = m by omega]
  rw [show (m + 1 : Nat) = Nat.succ m by rfl, List.range_succ, List.map_append,
    List.map_singleton]
  congr 1
  · apply List.eq_replicate_iff.mpr
    refine ⟨by simp, ?_⟩
    intro b hb
    simp only [List.mem_map, List.mem_range] at hb
    obtain ⟨i, hi, rfl⟩ := hb
    exact decide_eq_false (by push_cast; omega)
  · rw [decide_eq_true (by push_cast; omega)]

/-- C6: for a fixed aggregation key and threshold t ≥ 1, starting from a
fresh aggregator, a sequence of exactly t `Add` calls in which every prior
entry still lies strictly inside the sliding window at each later call
returns false on each of the first t−1 calls and true on the t-th. -/
theorem C6_threshold_reached (w t : Int) (ht : 1 ≤ t) (K : String)
    (calls : List (Int × Alert)) (hlen : (calls.length : Int) = t)
    (hkey : ∀ c ∈ calls, aggKey c.2 = K)
    (hwin : List.Pairwise (fun c d => d.1 - w < c.2.Timestamp) calls) :
    (addSeq (newAggregator w t) calls).2
      = List.replicate (calls.length - 1) false ++ [true] := by
  have h := addSeq_same_key K w t calls (newAggregator w t) rfl rfl hkey
    (by intro b hb; simp [newAggregator] at hb) hwin
  rw [h]
  have hn : 1 ≤ calls.length := by omega
  calc (List.range calls.length).map
        (fun i : Nat =>
          decide (t ≤ (((newAggregator w t).alerts K).length : Int) + (i : Int) + 1))
      = (List.range calls.length).map
          (fun i : Nat => decide ((calls.length : Int) ≤ (i : Int) + 1)) := by
        apply List.map_congr_left
        intro i _
        rw [decide_eq_decide]
        show t ≤ (0 : Int) + (i : Int) + 1 ↔ (calls.length : Int) ≤ (i : Int) + 1
        rw [hlen]
        omega
    _ = List.replicate (calls.length - 1) false ++ [true] :=
        map_decide_range calls.length hn

/-- C6 witness (the spec's scenario): window 60, threshold 3, one key,
adds at times 0, 10, 20 — results false, false, true. -/
theorem C6_threshold_reached_witness :
    (addSeq (newAggregator 60 3) [(0, exAlert 0), (10, exAlert 10), (20, exAlert 20)]).2
      = List.replicate 2 false ++ [true] :=
  C6_threshold_reached 60 3 (by decide) "C-high-T"
    [(0, exAlert 0), (10, exAlert 10), (20, exAlert 20)]
    (by decide) (by decide) (by decide)

/-- C7: an `Add` performed when every prior same-key entry is strictly
older than now − window behaves as a first occurrence: the pruned list
holds only the new alert, and the call returns true iff the threshold
is 1 (so false for any threshold t ≥ 2). -/
theorem C7_aged_out_first_occurrence (aa : AlertAggregator) (now : Int) (a : Alert)
    (ht : 1 ≤ aa.threshold)
    (hold : ∀ b ∈ aa.alerts (aggKey a), b.Timestamp < now - aa.window) :
    ((AggAdd aa now a).1.alerts (aggKey a) = [a])
    ∧ ((AggAdd aa now a).2 = true ↔ aa.threshold = 1) := by
  have hfilter :
      (aa.alerts (aggKey a)).filter (fun x => decide (now - aa.window < x.Timestamp))
        = [] := by
    apply List.filter_eq_nil_iff.mpr
    intro b hb
    simp only [decide_eq_true_eq]
    have := hold b hb
    omega
  constructor
  · simp [AggAdd, hfilter]
  · simp only [AggAdd, hfilter, List.nil_append, List.length_cons, List.length_nil,
      decide_eq_true_eq]
    constructor <;> (intro h; omega)

/-- C7 witness (the spec's scenario): window 60, threshold 3, a single
tracked entry at time 0, `Add` at time 70 — the bucket resets to the new
alert alone and the call returns false (threshold ≠ 1). -/
theorem C7_aged_out_first_occurrence_witness :
    ((AggAdd exAggStale 70 (exAlert 70)).1.alerts (aggKey (exAlert 70)) = [exAlert 70])
    ∧ ((AggAdd exAggStale 70 (exAlert 70)).2 = true ↔ exAggStale.threshold = 1) :=
  C7_aged_out_first_occurrence exAggStale 70 (exAlert 70) (by decide) (by decide)

theorem runRow_eq_map (cfg : MonitorConfig) (cid : String) (now : Int)
    (vs : List (String × Validator)) :
    runRow cfg cid now vs
      = (vs.filter (fun nv => isCheckEnabled cfg nv.1)).map
          (fun nv => ((cid, nv.1), runValidationTask cfg cid nv.1 nv.2 now)) := by
  induction vs with
  | nil => rfl
  | cons nv rest ih =>
    obtain ⟨n, v⟩ := nv
    by_cases h : isCheckEnabled cfg n = true
    · simp [runRow, h, List.filter_cons, ih]
    · simp [runRow, h, List.filter_cons, ih]

theorem runValidations_eq_map (cfg : MonitorConfig) (csoIDs : List String)
    (vs : List (String × Validator)) (now : Int) :
    runValidations cfg csoIDs vs now
      = (launchedTasks cfg csoIDs vs).map
          (fun tv => (tv.1, runValidationTask cfg tv.1.1 tv.1.2 tv.2 now)) := by
  induction csoIDs with
  | nil => rfl
  | cons cid rest ih =>
    simp only [runValidations, launchedTasks, List.flatMap_cons, List.map_append,
      List.map_map, runRow_eq_map, ih]
    rfl

/-- C8 counterexample: with one tracked entity and one registered validator
whose registry name "ksi" is not listed in `EnabledChecks`, the tick
launches no task at all — in particular not for the pair
("CSO-001", "ksi") — contradicting "for every pair of a tracked entity
identifier and a registered Validator, the scheduler launches an
independent task". -/
theorem C8_counterexample_disabled_check :
    launchedPairs exCfgNone ["CSO-001"] [("ksi", exValidatorLow)] = []
    ∧ ("CSO-001", "ksi") ∉ launchedPairs exCfgNone ["CSO-001"] [("ksi", exValidatorLow)] := by
  have h : launchedPairs exCfgNone ["CSO-001"] [("ksi", exValidatorLow)] = [] := rfl
  exact ⟨h, by rw [h]; exact List.not_mem_nil _⟩

/-- C8 amended: on a validation tick a task is launched for exactly those
(entity, validator) pairs whose validator registry name passes
`isCheckEnabled` (i.e. appears in `config.EnabledChecks`); pairs of a
tracked entity with a registered but not-enabled validator are skipped.
Each launched task invokes its own validator on its own entity
(`runValidations` is the per-pair map of `runValidationTask`). -/
theorem C8_amended_enabled_pairs (cfg : MonitorConfig) (csoIDs : List String)
    (vs : List (String × Validator)) (cid vname : String) :
    ((cid, vname) ∈ launchedPairs cfg csoIDs vs
      ↔ cid ∈ csoIDs ∧ isCheckEnabled cfg vname = true ∧ ∃ v, (vname, v) ∈ vs)
    ∧ (∀ now, runValidations cfg csoIDs vs now
        = (launchedTasks cfg csoIDs vs).map
            (fun tv => (tv.1, runValidationTask cfg tv.1.1 tv.1.2 tv.2 now))) := by
  refine ⟨?_, fun now => runValidations_eq_map cfg csoIDs vs now⟩
  constructor
  · intro h
    rw [launchedPairs, List.mem_map] at h
    obtain ⟨tv, htv, hfst⟩ := h
    rw [launchedTasks, List.mem_flatMap] at htv
    obtain ⟨c, hc, htv2⟩ := htv
    rw [List.mem_map] at htv2
    obtain ⟨nv, hnv, rfl⟩ := htv2
    obtain ⟨hmem, hen⟩ := List.mem_filter.mp hnv
    simp only at hfst
    obtain ⟨rfl, rfl⟩ := Prod.mk.injEq .. ▸ And.intro (congrArg Prod.fst hfst)
      (congrArg Prod.snd hfst)
    exact ⟨hc, hen, nv.2, by simpa using hmem⟩
  · rintro ⟨hcid, hen, v, hv⟩
    rw [launchedPairs, List.mem_map]
    refine ⟨((cid, vname), v), ?_, rfl⟩
    rw [launchedTasks, List.mem_flatMap]
    refine ⟨cid, hcid, ?_⟩
    rw [List.mem_map]
    exact ⟨(vname, v), List.mem_filter.mpr ⟨hv, hen⟩, rfl⟩

/-- C8 amended witness: with "ksi" enabled, the pair ("CSO-001", "ksi") is
launched for the registered validator. -/
theorem C8_amended_enabled_pairs_witness :
    ("CSO-001", "ksi") ∈ launchedPairs exCfg ["CSO-001"] [("ksi", exValidatorLow)] :=
  (C8_amended_enabled_pairs exCfg ["CSO-001"] [("ksi", exValidatorLow)]
    "CSO-001" "ksi").1.mpr
    ⟨by decide, by decide, exValidatorLow, by simp⟩

/-- C9: per launched (entity, validator) task: a `Validate` error yields no
alert (the error is only logged); a successful `Validate` submits an alert
iff the result is invalid or its score is below the configured threshold,
and the alert submitted is exactly the one built by
`processValidationResult`; and the whole tick is the independent per-pair
map of these tasks, so one pair's error cannot abort the tick or any other
pair. -/
theorem C9_task_error_isolation (cfg : MonitorConfig) (cid vname : String)
    (v : Validator) (now : Int) :
    (∀ e, v.validate cid = Except.error e → runValidationTask cfg cid vname v now = none)
    ∧ (∀ r, v.validate cid = Except.ok r →
        runValidationTask cfg cid vname v now
          = if r.Valid = false ∨ r.Score < cfg.alertThreshold
            then some (mkValidationAlert cid vname now r) else none)
    ∧ (∀ csoIDs vs, runValidations cfg csoIDs vs now
        = (launchedTasks cfg csoIDs vs).map
            (fun tv => (tv.1, runValidationTask cfg tv.1.1 tv.1.2 tv.2 now))) := by
  refine ⟨?_, ?_, fun csoIDs vs => runValidations_eq_map cfg csoIDs vs now⟩
  · intro e he
    rw [runValidationTask, he]
  · intro r hr
    have hstep : runValidationTask cfg cid vname v now
        = processValidationResult cfg cid vname now r := by
      unfold runValidationTask
      rw [hr]
    rw [hstep]
    unfold processValidationResult
    have hcond : ((!r.Valid || decide (r.Score < cfg.alertThreshold)) = true)
        ↔ (r.Valid = false ∨ r.Score < cfg.alertThreshold) := by
      simp [Bool.or_eq_true, Bool.not_eq_true', decide_eq_true_eq]
    by_cases h1 : r.Valid = false ∨ r.Score < cfg.alertThreshold
    · rw [if_pos (hcond.mpr h1), if_pos h1]
    · rw [if_neg (fun hh => h1 (hcond.mp hh)), if_neg h1]

/-- C9 witness: a failing validator produces no alert; a validator
returning a valid result with score 50 against threshold 70 produces
exactly the constructed alert. -/
theorem C9_task_error_isolation_witness :
    runValidationTask exCfg "CSO-001" "ksi" exValidatorErr 5 = none
    ∧ runValidationTask exCfg "CSO-001" "ksi" exValidatorLow 5
        = some (mkValidationAlert "CSO-001" "ksi" 5
            { Valid := true, Score := 50, Timestamp := 0, Violations := [] }) := by
  refine ⟨(C9_task_error_isolation exCfg "CSO-001" "ksi" exValidatorErr 5).1
    "db unavailable" rfl, ?_⟩
  have h := (C9_task_error_isolation exCfg "CSO-001" "ksi" exValidatorLow 5).2.1
    { Valid := true, Score := 50, Timestamp := 0, Violations := [] } rfl
  rw [h, if_pos (Or.inr (show (50 : ℚ) < exCfg.alertThreshold by norm_num [exCfg]))]

/-- C10: every alert constructed by the scheduler's result-processing step
carries severity "high" — never "critical" — regardless of the result's
score, validity or violations; consequently `PagerDutyHandler.Handle`,
which acts only on severity "critical", ignores every scheduler-raised
alert (before or after the queue's ID stamping), whatever its API key. -/
theorem C10_scheduler_never_pages (cid vname : String) (now now2 : Int)
    (r : ValidationResult) (h : PagerDutyHandler) :
    ((mkValidationAlert cid vname now r).Severity = "high")
    ∧ ((mkValidationAlert cid vname now r).Severity ≠ "critical")
    ∧ (pagerDutySends h (mkValidationAlert cid vname now r) = false)
    ∧ (pagerDutySends h (assignID now2 (mkValidationAlert cid vname now r)) = false)
    ∧ (∀ (cfg : MonitorConfig) (a : Alert),
        processValidationResult cfg cid vname now r = some a →
          a.Severity = "high" ∧ pagerDutySends h a = false) := by
  refine ⟨rfl, ?_, ?_, ?_, ?_⟩
  · intro hcontra
    simp [mkValidationAlert] at hcontra
  · simp [pagerDutySends, mkValidationAlert]
  · simp [pagerDutySends, mkValidationAlert, assignID]
  · intro cfg a ha
    rw [processValidationResult] at ha
    by_cases hc : (!r.Valid || decide (r.Score < cfg.alertThreshold)) = true
    · rw [if_pos hc, Option.some.injEq] at ha
      subst ha
      exact ⟨rfl, by simp [pagerDutySends, mkValidationAlert]⟩
    · rw [if_neg hc] at ha
      exact absurd ha (by simp)

/-- C10 witness: applying the result-processing clause at the concrete
below-threshold result yields a severity-"high" alert that the paging
handler ignores even with a non-empty API key. -/
theorem C10_scheduler_never_pages_witness :
    (mkValidationAlert "CSO-001" "ksi" 5
        { Valid := true, Score := 50, Timestamp := 0, Violations := [] }).Severity = "high"
    ∧ pagerDutySends { apiKey := "k", routingKey := "r" }
        (mkValidationAlert "CSO-001" "ksi" 5
          { Valid := true, Score := 50, Timestamp := 0, Violations := [] }) = false := by
  have h := (C10_scheduler_never_pages "CSO-001" "ksi" 5 9
    { Valid := true, Score := 50, Timestamp := 0, Violations := [] }
    { apiKey := "k", routingKey := "r" }).2.2.2.2 exCfg
    (mkValidationAlert "CSO-001" "ksi" 5
      { Valid := true, Score := 50, Timestamp := 0, Violations := [] })
    (by rw [processValidationResult, if_pos]
        exact Bool.or_eq_true_iff.mpr (Or.inr (decide_eq_true
          (show (50 : ℚ) < exCfg.alertThreshold by norm_num [exCfg]))))
  exact h

end FedrampMonitor
